import Mathlib

/-!
Verification of the log-monitor bot (src/log_monitor_bot.py) against its
specification.

Modelling conventions:
* Python strings are modelled as `List Char`; Python `len`, slicing `[:n]`,
  and concatenation become `List.length`, `List.take`, `++`.
* Byte offsets into the log file are modelled as character offsets, which
  preserves all ordering/monotonicity structure of the claims.
* `time.time()` values are modelled as `Int` (supplied per loop tick).
* A compiled regular expression (`re.compile`) is modelled abstractly as a
  search predicate `Regex.search : List Char → Bool`; `re.compile` itself is
  an oracle `List Char → Option Regex` (`none` = `re.error`).  The internals
  of the `re` library are outside the repository.
* `send_telegram_message` is modelled as a delivery oracle
  `List Char → Bool` applied to the message text.
-/

/-- A compiled pattern: Python `re.compile(...)` result, reduced to its
`search` behaviour (`pattern.search(line)` truthiness). -/
structure Regex where
  search : List Char → Bool

/-- One entry of the `filters` list of the configuration
(`{name, pattern, enabled}`; a missing `enabled` key defaults to `True`
in the loader and is modelled as an explicit Boolean). -/
structure FilterConfig where
  name : List Char
  pattern : List Char
  enabled : Bool

/-- A successfully compiled filter, as stored in `self.filters`. -/
structure LogFilter where
  name : List Char
  pattern : Regex

/-- Model of `compile_filters` (src lines 36-48): keep enabled rules whose pattern
compiles, in configuration order; rules that fail to compile are skipped. -/
def compile_filters (rc : List Char → Option Regex) : List FilterConfig → List LogFilter
  | [] => []
  | c :: rest =>
    if c.enabled then
      match rc c.pattern with
      | some r => { name := c.name, pattern := r } :: compile_filters rc rest
      | none => compile_filters rc rest
    else compile_filters rc rest

/-- Model of `check_log_match` (src lines 90-94): first filter whose pattern's
`search` succeeds on the line; `(False, None)` when none does. -/
def check_log_match : List LogFilter → List Char → Bool × Option (List Char)
  | [], _ => (false, none)
  | f :: rest, line =>
    if f.pattern.search line then (true, some f.name) else check_log_match rest line

/-- The truncation marker appended by `format_log_batch`
(`"\n\n... (обрезано)"`, 16 characters). -/
def truncMarker : List Char := "\n\n... (обрезано)".data

/-- The header built by `format_log_batch` (src lines 99-102); the
timestamp string produced by `datetime.now().strftime` is a parameter. -/
def log_batch_header (timestamp : List Char) (n : Nat) : List Char :=
  "🔔 Уведомление о логах\n".data
    ++ "Время: ".data ++ timestamp ++ "\n".data
    ++ "Записей: ".data ++ (toString n).data ++ "\n".data
    ++ List.replicate 40 '=' ++ "\n\n".data

/-- The untruncated message: header followed by the entries joined with a
blank line (src lines 104-105). -/
def natural_message (timestamp : List Char) (logs : List (List Char)) : List Char :=
  log_batch_header timestamp logs.length ++ List.intercalate "\n\n".data logs

/-- Model of `format_log_batch` (src lines 96-110): the natural message, cut to its
first 4000 characters with the marker appended when longer than 4000. -/
def format_log_batch (timestamp : List Char) (logs : List (List Char)) : List Char :=
  let message := natural_message timestamp logs
  if 4000 < message.length then message.take 4000 ++ truncMarker else message

/-- The bot's mutable fields relevant to the core pipeline
(src lines 22-25). -/
structure BotState where
  last_position : Nat
  pending_logs : List (List Char)
  last_send_time : Int
  total_logs_sent : Nat
deriving DecidableEq

/-- The `monitoring` section of the configuration (src lines 18-20). -/
structure MonitoringConfig where
  batch_size : Nat
  batch_timeout : Int
deriving DecidableEq

/-- Fields of the bot state at construction (src lines 22-25):
offset 0, no pending entries, `last_send_time = time.time()` at init. -/
def initState (t0 : Int) : BotState :=
  { last_position := 0, pending_logs := [], last_send_time := t0, total_logs_sent := 0 }

/-- Model of `send_pending_logs` (src lines 112-125).  `timestamp` feeds
`format_log_batch`; `deliver` is the `send_telegram_message` oracle; `now`
is `time.time()` at the send.  Returns the updated state and the Python
return value. -/
def send_pending_logs (timestamp : List Char) (deliver : List Char → Bool)
    (now : Int) (s : BotState) : BotState × Bool :=
  if s.pending_logs = [] then (s, true)
  else if deliver (format_log_batch timestamp s.pending_logs) then
    ({ s with total_logs_sent := s.total_logs_sent + s.pending_logs.length,
              pending_logs := [],
              last_send_time := now }, true)
  else (s, false)

/-- Python-style `str.strip()` whitespace set (ASCII part; the lines the
bot handles are decoded text). -/
def isPyWhitespace (c : Char) : Bool :=
  c = ' ' || c = '\t' || c = '\n' || c = '\r' || c = '\x0b' || c = '\x0c'

/-- Python `line.strip()`. -/
def pyStrip (s : List Char) : List Char :=
  ((s.dropWhile isPyWhitespace).reverse.dropWhile isPyWhitespace).reverse

/-- Helper for `pySplitLines`: accumulates the current (reversed) line. -/
def splitLinesAux : List Char → List Char → List (List Char)
  | [], acc => if acc = [] then [] else [acc.reverse]
  | c :: rest, acc =>
    if c = '\n' then (acc.reverse ++ ['\n']) :: splitLinesAux rest []
    else splitLinesAux rest (c :: acc)

/-- Python `f.readlines()` on the given text: split after each newline,
keeping the terminator; a trailing unterminated fragment is its own line;
empty text yields no lines. -/
def pySplitLines (s : List Char) : List (List Char) :=
  splitLinesAux s []

/-- The per-line body of the read loop in `process_new_lines`
(src lines 137-147): strip, skip empty, append `"[name]\nline"` on a
match. -/
def processLines (filters : List LogFilter) (pending : List (List Char))
    (lines : List (List Char)) : List (List Char) :=
  lines.foldl (fun acc rawLine =>
    let line := pyStrip rawLine
    if line = [] then acc
    else
      match check_log_match filters line with
      | (true, some name) => acc ++ ["[".data ++ name ++ "]\n".data ++ line]
      | _ => acc) pending

/-- External circumstances of one poll: the log file's content (`none` when
`os.path.exists` is false), whether the read raises an I/O error, the
current clock, the formatted timestamp, and the delivery oracle. -/
structure PollInput where
  file : Option (List Char)
  ioError : Bool
  now : Int
  timestamp : List Char
  deliver : List Char → Bool

/-- Model of `process_new_lines` (src lines 127-155): return unchanged when the file
is missing or the read raises; otherwise read from the stored offset to
end of file, process the lines, store the new offset, and invoke
`send_pending_logs` when the pending count reaches `batch_size`.  The
Boolean records whether the size-triggered `send_pending_logs` call was
made. -/
def process_new_lines (cfg : MonitoringConfig) (filters : List LogFilter)
    (inp : PollInput) (s : BotState) : BotState × Bool :=
  match inp.file with
  | none => (s, false)
  | some f =>
    if inp.ioError then (s, false)
    else
      let rawLines := pySplitLines (f.drop s.last_position)
      let current_position := max s.last_position f.length
      let pending := processLines filters s.pending_logs rawLines
      let s1 : BotState :=
        { s with pending_logs := pending, last_position := current_position }
      if cfg.batch_size ≤ s1.pending_logs.length then
        ((send_pending_logs inp.timestamp inp.deliver inp.now s1).1, true)
      else (s1, false)

/-- One iteration of the monitoring loop body (src lines 185-192):
`process_new_lines`, then the time-based flush when pending entries exist
and the timeout elapsed.  The two Booleans record the size-triggered and
time-triggered `send_pending_logs` invocations. -/
def tick (cfg : MonitoringConfig) (filters : List LogFilter)
    (inp : PollInput) (s : BotState) : BotState × Bool × Bool :=
  if (process_new_lines cfg filters inp s).1.pending_logs ≠ [] ∧
      cfg.batch_timeout ≤ inp.now - (process_new_lines cfg filters inp s).1.last_send_time then
    ((send_pending_logs inp.timestamp inp.deliver inp.now
        (process_new_lines cfg filters inp s).1).1,
     (process_new_lines cfg filters inp s).2, true)
  else ((process_new_lines cfg filters inp s).1, (process_new_lines cfg filters inp s).2, false)

/-- Final state after a sequence of loop iterations. -/
def runTicks (cfg : MonitoringConfig) (filters : List LogFilter)
    (inputs : List PollInput) (s : BotState) : BotState :=
  inputs.foldl (fun st i => (tick cfg filters i st).1) s

/-- The states traversed by a sequence of loop iterations (initial state
included). -/
def statesAlong (cfg : MonitoringConfig) (filters : List LogFilter)
    (inputs : List PollInput) (s : BotState) : List BotState :=
  inputs.scanl (fun st i => (tick cfg filters i st).1) s

/-- The file lengths observed by the successful reads of a trace, in
order. -/
def obsLens (inputs : List PollInput) : List Nat :=
  inputs.filterMap (fun i =>
    match i.file with
    | none => none
    | some f => if i.ioError then none else some f.length)

/-- The character ranges `[start, stop)` of the file consumed by each
successful read of a trace: a successful read at offset `p` on content `f`
consumes `[p, max p f.length)` (seek to `p`, read to end of file). -/
def consumedRanges (cfg : MonitoringConfig) (filters : List LogFilter) :
    List PollInput → BotState → List (Nat × Nat)
  | [], _ => []
  | i :: rest, s =>
    match i.file with
    | none => consumedRanges cfg filters rest (tick cfg filters i s).1
    | some f =>
      if i.ioError then consumedRanges cfg filters rest (tick cfg filters i s).1
      else (s.last_position, max s.last_position f.length)
        :: consumedRanges cfg filters rest (tick cfg filters i s).1

/-- Model of the `run` startup (src lines 165-178) followed by the loop: if the
connectivity probe (`test_connection`) fails, or delivering the startup
announcement fails, `run` returns without executing any loop iteration;
otherwise the loop runs.  The Boolean records whether monitoring was
entered. -/
def run (cfg : MonitoringConfig) (filters : List LogFilter)
    (probeOk startupSendOk : Bool) (inputs : List PollInput) (s : BotState) :
    BotState × Bool :=
  if probeOk = false then (s, false)
  else if startupSendOk = false then (s, false)
  else (runTicks cfg filters inputs s, true)

/-! Concrete inputs used by counterexamples and witnesses. -/

/-- A fixed 19-character timestamp of the shape
`datetime.now().strftime('%Y-%m-%d %H:%M:%S')` produces. -/
def ts0 : List Char := "2026-10-12 00:00:00".data

/-- A 4000-character log entry. -/
def bigA : List Char := List.replicate 4000 'a'

/-- A regex whose `search` finds the literal text `ERROR` anywhere in the
line (as `re.compile("ERROR").search` does). -/
def errorRegex : Regex :=
  { search := fun line => decide (List.IsInfix "ERROR".data line) }

/-- A compile oracle for witnesses: every pattern compiles to a literal
substring search. -/
def literalCompile (pat : List Char) : Option Regex :=
  some { search := fun line => decide (List.IsInfix pat line) }

/-- A configuration with `batch_size = 10` and `batch_timeout = 5`
(the defaults of src lines 19-20). -/
def cfg0 : MonitoringConfig := { batch_size := 10, batch_timeout := 5 }

/-- The single-rule filter list of the spec's end-to-end scenario. -/
def filters0 : List LogFilter := [{ name := "ERROR".data, pattern := errorRegex }]

/-- A small log file with one matching and one non-matching line. -/
def file0 : List Char := "INFO ok\nERROR disk full\n".data

/-- A state with one pending entry, for delivery-failure witnesses. -/
def stFail : BotState :=
  { last_position := 3, pending_logs := ["[ERROR]\nERROR boom".data],
    last_send_time := 7, total_logs_sent := 2 }

/-- A state whose two pending entries render past the 4000-character cap,
so the second entry's text is cut from the transmitted message. -/
def stBig : BotState :=
  { last_position := 0, pending_logs := [bigA, "tail entry".data],
    last_send_time := 0, total_logs_sent := 5 }

/-- A poll during which the log file does not exist. -/
def missingPoll : PollInput :=
  { file := none, ioError := false, now := 0, timestamp := ts0,
    deliver := fun _ => true }

/-- A poll observing a small log file. -/
def onePoll : PollInput :=
  { file := some file0, ioError := false, now := 1, timestamp := ts0,
    deliver := fun _ => true }

/-- A poll observing a one-line file. -/
def pollA : PollInput :=
  { file := some "one\n".data, ioError := false, now := 1, timestamp := ts0,
    deliver := fun _ => true }

/-- A poll while the file is missing. -/
def pollB : PollInput :=
  { file := none, ioError := false, now := 2, timestamp := ts0,
    deliver := fun _ => true }

/-- A poll observing the same file grown by one line. -/
def pollC : PollInput :=
  { file := some "one\ntwo ERROR\n".data, ioError := false, now := 3,
    timestamp := ts0, deliver := fun _ => true }

/-- A three-cycle trace with a non-shrinking file. -/
def trace0 : List PollInput := [pollA, pollB, pollC]

/-! ## Helper lemmas -/

lemma check_log_match_eq_find (filters : List LogFilter) (line : List Char) :
    check_log_match filters line =
      match filters.find? (fun f => f.pattern.search line) with
      | some f => (true, some f.name)
      | none => (false, none) := by
  induction filters with
  | nil => rfl
  | cons f rest ih =>
    cases hpat : f.pattern.search line with
    | true => simp [check_log_match, List.find?, hpat]
    | false => simp [check_log_match, List.find?, hpat, ih]

lemma compile_filters_eq_filterMap (rc : List Char → Option Regex)
    (cfgs : List FilterConfig) :
    compile_filters rc cfgs = cfgs.filterMap (fun c =>
      if c.enabled then (rc c.pattern).map (fun r => { name := c.name, pattern := r })
      else none) := by
  induction cfgs with
  | nil => rfl
  | cons c rest ih =>
    by_cases he : c.enabled
    · cases hr : rc c.pattern <;>
        simp [compile_filters, List.filterMap_cons, he, hr, ih]
    · simp [compile_filters, List.filterMap_cons, he, ih]

lemma send_pending_logs_last_position (ts : List Char) (deliver : List Char → Bool)
    (now : Int) (s : BotState) :
    (send_pending_logs ts deliver now s).1.last_position = s.last_position := by
  unfold send_pending_logs
  by_cases he : s.pending_logs = [] <;>
    by_cases hd : deliver (format_log_batch ts s.pending_logs) <;>
      simp [he, hd]

lemma process_new_lines_last_position (cfg : MonitoringConfig)
    (filters : List LogFilter) (inp : PollInput) (s : BotState) :
    (process_new_lines cfg filters inp s).1.last_position =
      match inp.file with
      | none => s.last_position
      | some f => if inp.ioError then s.last_position
                  else max s.last_position f.length := by
  unfold process_new_lines
  cases hf : inp.file with
  | none => rfl
  | some f =>
    by_cases he : inp.ioError <;>
      by_cases hs : cfg.batch_size ≤ (processLines filters s.pending_logs
          (pySplitLines (f.drop s.last_position))).length <;>
        simp [he, hs, send_pending_logs_last_position]

lemma tick_last_position (cfg : MonitoringConfig) (filters : List LogFilter)
    (inp : PollInput) (s : BotState) :
    (tick cfg filters inp s).1.last_position =
      (process_new_lines cfg filters inp s).1.last_position := by
  unfold tick
  by_cases h : (process_new_lines cfg filters inp s).1.pending_logs ≠ [] ∧
      cfg.batch_timeout ≤ inp.now - (process_new_lines cfg filters inp s).1.last_send_time <;>
    simp [h, send_pending_logs_last_position]

lemma tick_last_position_mono (cfg : MonitoringConfig) (filters : List LogFilter)
    (inp : PollInput) (s : BotState) :
    s.last_position ≤ (tick cfg filters inp s).1.last_position := by
  rw [tick_last_position, process_new_lines_last_position]
  cases inp.file with
  | none => exact le_refl _
  | some f =>
    by_cases he : inp.ioError
    · simp [he]
    · simp [he, Nat.le_max_left]

lemma intercalate_singleton (sep : List Char) (l : List Char) :
    List.intercalate sep [l] = l := by
  simp [List.intercalate]

lemma format_log_batch_big (ts : List Char) (logs : List (List Char))
    (h : 4000 < (natural_message ts logs).length) :
    format_log_batch ts logs = (natural_message ts logs).take 4000 ++ truncMarker ∧
    (format_log_batch ts logs).length = 4000 + truncMarker.length := by
  have hfmt : format_log_batch ts logs
      = (natural_message ts logs).take 4000 ++ truncMarker := by
    unfold format_log_batch
    simp [h]
  refine ⟨hfmt, ?_⟩
  rw [hfmt, List.length_append, List.length_take]
  omega

lemma natural_message_bigA : 4000 < (natural_message ts0 [bigA]).length := by
  have h1 : (natural_message ts0 [bigA]).length
      = (log_batch_header ts0 1).length + bigA.length := by
    unfold natural_message
    rw [intercalate_singleton, List.length_append, List.length_singleton]
  have h2 : bigA.length = 4000 := List.length_replicate _ _
  have h3 : 0 < (log_batch_header ts0 1).length := by decide
  omega

/-! ## Claims -/

/-- C1, counterexample: the claim says the message produced by
`format_log_batch` is at most 4000 characters in total, but on a pending
list whose natural rendering exceeds 4000 characters the code returns the
4000-character cut WITH the 16-character marker appended, 4016 characters
in total. -/
theorem C1_claim_counterexample :
    4000 < (format_log_batch ts0 [bigA]).length := by
  rw [(format_log_batch_big ts0 [bigA] natural_message_bigA).2]
  have h : 0 < truncMarker.length := by decide
  omega

/-- C1 (amended): `format_log_batch` returns the natural message unchanged
when it has at most 4000 characters; when the natural message is longer,
it returns the first 4000 characters with the truncation marker appended,
4000 plus the marker length (16) characters in total. -/
theorem C1_truncation_cap (ts : List Char) (logs : List (List Char)) :
    ((natural_message ts logs).length ≤ 4000 →
      format_log_batch ts logs = natural_message ts logs) ∧
    (4000 < (natural_message ts logs).length →
      format_log_batch ts logs = (natural_message ts logs).take 4000 ++ truncMarker ∧
      (format_log_batch ts logs).length = 4000 + truncMarker.length) := by
  constructor
  · intro h
    unfold format_log_batch
    simp [Nat.not_lt.mpr h]
  · exact format_log_batch_big ts logs

/-- C1 witness: a short message is returned unchanged; the 4000-character
entry `bigA` forces truncation to exactly 4000 plus the marker length. -/
theorem C1_truncation_cap_witness :
    format_log_batch ts0 ["x".data] = natural_message ts0 ["x".data] ∧
    (format_log_batch ts0 [bigA]).length = 4000 + truncMarker.length :=
  ⟨(C1_truncation_cap ts0 ["x".data]).1 (by decide),
   ((C1_truncation_cap ts0 [bigA]).2 natural_message_bigA).2⟩

/-- C2: when delivery fails on a non-empty pending list,
`send_pending_logs` leaves the whole state unchanged (pending entries,
`total_logs_sent`, `last_send_time`) and returns `False`, so the next
attempt formats exactly the same content. -/
theorem C2_retry_on_failure (ts : List Char) (deliver : List Char → Bool)
    (now : Int) (s : BotState) (hne : s.pending_logs ≠ [])
    (hfail : deliver (format_log_batch ts s.pending_logs) = false) :
    send_pending_logs ts deliver now s = (s, false) ∧
    format_log_batch ts (send_pending_logs ts deliver now s).1.pending_logs
      = format_log_batch ts s.pending_logs := by
  unfold send_pending_logs
  simp [hne, hfail]

/-- C2 witness: a concrete failing delivery leaves the concrete state
intact. -/
theorem C2_retry_on_failure_witness :
    send_pending_logs ts0 (fun _ => false) 9 stFail = (stFail, false) ∧
    format_log_batch ts0 (send_pending_logs ts0 (fun _ => false) 9 stFail).1.pending_logs
      = format_log_batch ts0 stFail.pending_logs :=
  C2_retry_on_failure ts0 (fun _ => false) 9 stFail (by decide) rfl

/-- C3: `check_log_match` over the compiled filters returns the first rule
(in configuration order) whose pattern's search succeeds on the line and
`(False, None)` when none does, and `compile_filters` keeps exactly the
enabled rules whose pattern compiles, in configuration order. -/
theorem C3_first_match_and_exclusion (rc : List Char → Option Regex)
    (cfgs : List FilterConfig) (line : List Char) :
    (check_log_match (compile_filters rc cfgs) line =
      match (compile_filters rc cfgs).find? (fun f => f.pattern.search line) with
      | some f => (true, some f.name)
      | none => (false, none)) ∧
    compile_filters rc cfgs = cfgs.filterMap (fun c =>
      if c.enabled then (rc c.pattern).map (fun r => { name := c.name, pattern := r })
      else none) :=
  ⟨check_log_match_eq_find _ _, compile_filters_eq_filterMap _ _⟩

/-- C7: when the log file does not exist, or the read raises an I/O error,
`process_new_lines` returns the state unchanged (offset included) and
performs no flush. -/
theorem C7_io_error_keeps_state (cfg : MonitoringConfig)
    (filters : List LogFilter) (inp : PollInput) (s : BotState)
    (h : inp.file = none ∨ inp.ioError = true) :
    process_new_lines cfg filters inp s = (s, false) := by
  unfold process_new_lines
  rcases h with h | h
  · rw [h]
  · cases hf : inp.file with
    | none => rfl
    | some f => simp [h]

/-- C7 witness: a poll with a missing file leaves a concrete state
unchanged. -/
theorem C7_io_error_keeps_state_witness :
    process_new_lines cfg0 filters0 missingPoll (initState 0) = (initState 0, false) :=
  C7_io_error_keeps_state cfg0 filters0 missingPoll (initState 0) (Or.inl rfl)

/-- C8: if the connectivity probe fails or the startup-announcement
delivery fails, `run` returns with the state untouched and does not enter
monitoring — no poll of the trace is executed and no retry occurs. -/
theorem C8_startup_failure_no_monitoring (cfg : MonitoringConfig)
    (filters : List LogFilter) (probeOk startupSendOk : Bool)
    (inputs : List PollInput) (s : BotState)
    (h : probeOk = false ∨ startupSendOk = false) :
    run cfg filters probeOk startupSendOk inputs s = (s, false) := by
  unfold run
  rcases h with h | h
  · simp [h]
  · by_cases hp : probeOk = false <;> simp [hp, h]

/-- C8 witness: a failed startup announcement with a non-empty poll trace
still polls nothing. -/
theorem C8_startup_failure_no_monitoring_witness :
    run cfg0 filters0 true false [onePoll] (initState 0) = (initState 0, false) :=
  C8_startup_failure_no_monitoring cfg0 filters0 true false [onePoll] (initState 0)
    (Or.inr rfl)

/-- C10: on a successful delivery, `send_pending_logs` clears all pending
entries and adds the full pending count to `total_logs_sent` — with no
condition on the transmitted message, so entries whose text the
4000-character truncation cut from the message are counted as delivered
and, the buffer being cleared, never retransmitted. -/
theorem C10_truncated_entries_counted (ts : List Char)
    (deliver : List Char → Bool) (now : Int) (s : BotState)
    (hOk : deliver (format_log_batch ts s.pending_logs) = true) :
    (send_pending_logs ts deliver now s).1.pending_logs = [] ∧
    (send_pending_logs ts deliver now s).1.total_logs_sent
      = s.total_logs_sent + s.pending_logs.length := by
  unfold send_pending_logs
  by_cases he : s.pending_logs = [] <;> simp [he, hOk]

/-- C10 witness: a state whose rendering is truncated past its second
entry still ends with an empty buffer and both entries counted. -/
theorem C10_truncated_entries_counted_witness :
    (send_pending_logs ts0 (fun _ => true) 3 stBig).1.pending_logs = [] ∧
    (send_pending_logs ts0 (fun _ => true) 3 stBig).1.total_logs_sent = 5 + 2 :=
  C10_truncated_entries_counted ts0 (fun _ => true) 3 stBig rfl

lemma head_scanl {α β : Type} (f : β → α → β) (q : β) (l : List α) :
    (List.scanl f q l).head? = some q := by
  cases l <;> rfl

lemma chain_scanl_mono (cfg : MonitoringConfig) (filters : List LogFilter) :
    ∀ (inputs : List PollInput) (s : BotState),
      List.Chain' (fun a b => a.last_position ≤ b.last_position)
        (statesAlong cfg filters inputs s) := by
  intro inputs
  induction inputs with
  | nil => intro s; simp [statesAlong]
  | cons i rest ih =>
    intro s
    rw [statesAlong, List.scanl_cons]
    refine List.chain'_cons'.mpr ⟨?_, ih ((tick cfg filters i s).1)⟩
    intro y hy
    have hy' : (tick cfg filters i s).1 = y := by
      simpa [List.nil_append, head_scanl] using hy
    rw [← hy']
    exact tick_last_position_mono cfg filters i s

lemma obsLens_cons (i : PollInput) (rest : List PollInput) :
    obsLens (i :: rest) =
      match i.file with
      | none => obsLens rest
      | some f => if i.ioError then obsLens rest else f.length :: obsLens rest := by
  unfold obsLens
  rw [List.filterMap_cons]
  cases hf : i.file with
  | none => rfl
  | some f => by_cases he : i.ioError <;> simp [he]

lemma runTicks_last_position (cfg : MonitoringConfig) (filters : List LogFilter) :
    ∀ (inputs : List PollInput) (s : BotState),
      List.Chain' (· ≤ ·) (s.last_position :: obsLens inputs) →
      (runTicks cfg filters inputs s).last_position
        = List.getLastD (obsLens inputs) s.last_position := by
  intro inputs
  induction inputs with
  | nil => intro s _; rfl
  | cons i rest ih =>
    intro s h
    have hstep : runTicks cfg filters (i :: rest) s
        = runTicks cfg filters rest (tick cfg filters i s).1 := rfl
    rw [hstep]
    cases hf : i.file with
    | none =>
      have hpos : (tick cfg filters i s).1.last_position = s.last_position := by
        rw [tick_last_position, process_new_lines_last_position, hf]
      have hobs : obsLens (i :: rest) = obsLens rest := by
        rw [obsLens_cons, hf]
      rw [hobs] at h ⊢
      rw [ih _ (by rw [hpos]; exact h), hpos]
    | some f =>
      by_cases he : i.ioError
      · have hpos : (tick cfg filters i s).1.last_position = s.last_position := by
          rw [tick_last_position, process_new_lines_last_position, hf]
          simp [he]
        have hobs : obsLens (i :: rest) = obsLens rest := by
          rw [obsLens_cons, hf]
          simp [he]
        rw [hobs] at h ⊢
        rw [ih _ (by rw [hpos]; exact h), hpos]
      · have hobs : obsLens (i :: rest) = f.length :: obsLens rest := by
          rw [obsLens_cons, hf]
          simp [he]
        rw [hobs] at h
        obtain ⟨hle, htail⟩ := List.chain'_cons.mp h
        have hpos : (tick cfg filters i s).1.last_position = f.length := by
          rw [tick_last_position, process_new_lines_last_position, hf]
          simp [he, max_eq_right hle]
        rw [hobs, List.getLastD_cons]
        rw [ih _ (by rw [hpos]; exact htail), hpos]

lemma consumedRanges_lb (cfg : MonitoringConfig) (filters : List LogFilter) :
    ∀ (inputs : List PollInput) (s : BotState) (r : Nat × Nat),
      r ∈ consumedRanges cfg filters inputs s → s.last_position ≤ r.1 := by
  intro inputs
  induction inputs with
  | nil => intro s r hr; simp [consumedRanges] at hr
  | cons i rest ih =>
    intro s r hr
    have hmono := tick_last_position_mono cfg filters i s
    cases hf : i.file with
    | none =>
      rw [consumedRanges, hf] at hr
      exact le_trans hmono (ih _ r hr)
    | some f =>
      by_cases he : i.ioError
      · simp only [consumedRanges, hf] at hr
        rw [if_pos he] at hr
        exact le_trans hmono (ih _ r hr)
      · simp only [consumedRanges, hf] at hr
        rw [if_neg he] at hr
        rcases List.mem_cons.mp hr with hr | hr
        · rw [hr]
        · exact le_trans hmono (ih _ r hr)

lemma consumedRanges_head_start (cfg : MonitoringConfig) (filters : List LogFilter) :
    ∀ (inputs : List PollInput) (s : BotState) (r : Nat × Nat),
      (consumedRanges cfg filters inputs s).head? = some r →
      r.1 = s.last_position := by
  intro inputs
  induction inputs with
  | nil => intro s r hr; simp [consumedRanges] at hr
  | cons i rest ih =>
    intro s r hr
    cases hf : i.file with
    | none =>
      rw [consumedRanges, hf] at hr
      have hpos : (tick cfg filters i s).1.last_position = s.last_position := by
        rw [tick_last_position, process_new_lines_last_position, hf]
      rw [ih _ r hr, hpos]
    | some f =>
      by_cases he : i.ioError
      · simp only [consumedRanges, hf] at hr
        rw [if_pos he] at hr
        have hpos : (tick cfg filters i s).1.last_position = s.last_position := by
          rw [tick_last_position, process_new_lines_last_position, hf]
          simp [he]
        rw [ih _ r hr, hpos]
      · simp only [consumedRanges, hf] at hr
        rw [if_neg he] at hr
        simp only [List.head?_cons, Option.some.injEq] at hr
        rw [← hr]

lemma tick_last_position_read (cfg : MonitoringConfig) (filters : List LogFilter)
    (i : PollInput) (s : BotState) (f : List Char)
    (hf : i.file = some f) (he : ¬ i.ioError = true) :
    (tick cfg filters i s).1.last_position = max s.last_position f.length := by
  rw [tick_last_position, process_new_lines_last_position, hf]
  simp [he]

lemma consumedRanges_chain (cfg : MonitoringConfig) (filters : List LogFilter) :
    ∀ (inputs : List PollInput) (s : BotState),
      List.Chain' (fun r₁ r₂ => r₁.2 = r₂.1)
        (consumedRanges cfg filters inputs s) := by
  intro inputs
  induction inputs with
  | nil => intro s; simp [consumedRanges]
  | cons i rest ih =>
    intro s
    cases hf : i.file with
    | none => rw [consumedRanges, hf]; exact ih _
    | some f =>
      by_cases he : i.ioError
      · simp only [consumedRanges, hf]
        rw [if_pos he]
        exact ih _
      · simp only [consumedRanges, hf]
        rw [if_neg he]
        refine List.chain'_cons'.mpr ⟨?_, ih _⟩
        intro r hr
        have h1 := consumedRanges_head_start cfg filters rest _ r hr
        have hpos := tick_last_position_read cfg filters i s f hf he
        rw [h1, hpos]

lemma consumedRanges_start_le_stop (cfg : MonitoringConfig)
    (filters : List LogFilter) :
    ∀ (inputs : List PollInput) (s : BotState),
      ∀ r ∈ consumedRanges cfg filters inputs s, r.1 ≤ r.2 := by
  intro inputs
  induction inputs with
  | nil => intro s r hr; simp [consumedRanges] at hr
  | cons i rest ih =>
    intro s r hr
    cases hf : i.file with
    | none =>
      rw [consumedRanges, hf] at hr
      exact ih _ r hr
    | some f =>
      by_cases he : i.ioError
      · simp only [consumedRanges, hf] at hr
        rw [if_pos he] at hr
        exact ih _ r hr
      · simp only [consumedRanges, hf] at hr
        rw [if_neg he] at hr
        rcases List.mem_cons.mp hr with hr | hr
        · rw [hr]; exact Nat.le_max_left _ _
        · exact ih _ r hr

lemma consumedRanges_pairwise (cfg : MonitoringConfig) (filters : List LogFilter) :
    ∀ (inputs : List PollInput) (s : BotState),
      List.Pairwise (fun r₁ r₂ => r₁.2 ≤ r₂.1)
        (consumedRanges cfg filters inputs s) := by
  intro inputs
  induction inputs with
  | nil => intro s; simp [consumedRanges]
  | cons i rest ih =>
    intro s
    cases hf : i.file with
    | none => rw [consumedRanges, hf]; exact ih _
    | some f =>
      by_cases he : i.ioError
      · simp only [consumedRanges, hf]
        rw [if_pos he]
        exact ih _
      · simp only [consumedRanges, hf]
        rw [if_neg he]
        refine List.pairwise_cons.mpr ⟨?_, ih _⟩
        intro r hr
        have hlb := consumedRanges_lb cfg filters rest _ r hr
        have hpos := tick_last_position_read cfg filters i s f hf he
        exact hpos ▸ hlb

/-- C4: over any trace of poll cycles in which the observed file lengths
never shrink (and start at or above the stored offset), the stored offset
is non-decreasing from each cycle to the next, and the final offset equals
the file length observed at the last successful read (the initial offset
when no read succeeded) — in particular it never exceeds it. -/
theorem C4_offset_monotone (cfg : MonitoringConfig) (filters : List LogFilter)
    (inputs : List PollInput) (s : BotState)
    (h : List.Chain' (· ≤ ·) (s.last_position :: obsLens inputs)) :
    List.Chain' (fun a b => a.last_position ≤ b.last_position)
      (statesAlong cfg filters inputs s) ∧
    (runTicks cfg filters inputs s).last_position
      = List.getLastD (obsLens inputs) s.last_position :=
  ⟨chain_scanl_mono cfg filters inputs s,
   runTicks_last_position cfg filters inputs s h⟩

/-- C4 witness: a concrete three-cycle trace (read, missing file, read of
the grown file) from a fresh state. -/
theorem C4_offset_monotone_witness :
    List.Chain' (fun a b => a.last_position ≤ b.last_position)
      (statesAlong cfg0 filters0 trace0 (initState 0)) ∧
    (runTicks cfg0 filters0 trace0 (initState 0)).last_position
      = List.getLastD (obsLens trace0) (initState 0).last_position :=
  C4_offset_monotone cfg0 filters0 trace0 (initState 0)
    (by
      have h : (initState 0).last_position :: obsLens trace0 = [0, 4, 14] := rfl
      rw [h]
      exact List.Chain.cons (by decide) (List.Chain.cons (by decide) List.Chain.nil))

/-- C5: each successful read consumes exactly the character range from the
offset stored after the previous successful read to the end of file seen
at read time: consecutive consumed ranges abut (each begins where the
previous one stopped), every range is well-formed, and the ranges are
pairwise disjoint — so, absent truncation rewriting old positions, no line
consumed by a prior poll is ever read or processed again. -/
theorem C5_no_duplicate_consumption (cfg : MonitoringConfig)
    (filters : List LogFilter) (inputs : List PollInput) (s : BotState) :
    List.Chain' (fun r₁ r₂ => r₁.2 = r₂.1)
      (consumedRanges cfg filters inputs s) ∧
    (∀ r ∈ consumedRanges cfg filters inputs s, r.1 ≤ r.2) ∧
    List.Pairwise (fun r₁ r₂ => r₁.2 ≤ r₂.1)
      (consumedRanges cfg filters inputs s) :=
  ⟨consumedRanges_chain cfg filters inputs s,
   consumedRanges_start_le_stop cfg filters inputs s,
   consumedRanges_pairwise cfg filters inputs s⟩

/-- C5 witness: the concrete three-cycle trace instantiates the range
facts. -/
theorem C5_no_duplicate_consumption_witness :
    List.Chain' (fun r₁ r₂ => r₁.2 = r₂.1)
      (consumedRanges cfg0 filters0 trace0 (initState 0)) ∧
    (∀ r ∈ consumedRanges cfg0 filters0 trace0 (initState 0), r.1 ≤ r.2) ∧
    List.Pairwise (fun r₁ r₂ => r₁.2 ≤ r₂.1)
      (consumedRanges cfg0 filters0 trace0 (initState 0)) :=
  C5_no_duplicate_consumption cfg0 filters0 trace0 (initState 0)

/-- C6: flush triggers are exactly the spec's dual condition — within a
successful poll, the size-triggered `send_pending_logs` call happens
exactly when the pending count after line processing reaches
`batch_size`; on every loop tick, the time-triggered call happens exactly
when the post-poll pending list is non-empty and the time since the last
send reaches `batch_timeout`. -/
theorem C6_flush_triggers (cfg : MonitoringConfig) (filters : List LogFilter)
    (inp : PollInput) (f : List Char) (s : BotState) :
    (process_new_lines cfg filters { inp with file := some f, ioError := false } s).2
      = decide (cfg.batch_size ≤ (processLines filters s.pending_logs
          (pySplitLines (f.drop s.last_position))).length) ∧
    (tick cfg filters inp s).2.2
      = decide ((process_new_lines cfg filters inp s).1.pending_logs ≠ [] ∧
          cfg.batch_timeout ≤ inp.now
            - (process_new_lines cfg filters inp s).1.last_send_time) := by
  constructor
  · unfold process_new_lines
    by_cases h : cfg.batch_size ≤ (processLines filters s.pending_logs
        (pySplitLines (f.drop s.last_position))).length <;> simp [h]
  · unfold tick
    by_cases h : (process_new_lines cfg filters inp s).1.pending_logs ≠ [] ∧
        cfg.batch_timeout ≤ inp.now
          - (process_new_lines cfg filters inp s).1.last_send_time <;>
      simp [h]

/-- C9: the stored offset starts at 0, so the first successful poll reads
the file from its beginning: every line already present is fed to the
matching pipeline (here below the size threshold, so the resulting pending
list is exactly the processing of the whole file) and the offset advances
to the full file length. -/
theorem C9_initial_backfill (cfg : MonitoringConfig) (filters : List LogFilter)
    (t0 : Int) (inp : PollInput) (f : List Char)
    (hsize : (processLines filters [] (pySplitLines f)).length < cfg.batch_size) :
    (initState t0).last_position = 0 ∧
    (process_new_lines cfg filters { inp with file := some f, ioError := false }
        (initState t0)).1.pending_logs = processLines filters [] (pySplitLines f) ∧
    (process_new_lines cfg filters { inp with file := some f, ioError := false }
        (initState t0)).1.last_position = f.length := by
  refine ⟨rfl, ?_, ?_⟩ <;>
  · unfold process_new_lines
    simp [initState, Nat.not_le.mpr hsize]

/-- C9 witness: a fresh state reading a concrete two-line file yields
exactly the processing of the whole file and the full-length offset. -/
theorem C9_initial_backfill_witness :
    (initState 0).last_position = 0 ∧
    (process_new_lines cfg0 filters0 { onePoll with file := some file0, ioError := false }
        (initState 0)).1.pending_logs = processLines filters0 [] (pySplitLines file0) ∧
    (process_new_lines cfg0 filters0 { onePoll with file := some file0, ioError := false }
        (initState 0)).1.last_position = file0.length :=
  C9_initial_backfill cfg0 filters0 0 onePoll file0 (by decide)
